import Mathlib

/-!
Verification development for the serverless ETL pipeline
(`ETL Google Cloud Functions/main.py`).

The pipeline entry point `ETLpipeline(event, context)` decodes one Pub/Sub
record into a one-row pandas DataFrame, projects it into four tables
(Customers, Products, Orders, OrderDetails), builds a featuretools
EntitySet, runs `ft.dfs`, selects and renames 12 aggregate features,
left-merges them back onto OrderDetails by the synthetic "OrderDetail ID"
key, drops that key, and appends the four tables to BigQuery.  A top-level
`try/except` catches every exception, prints a diagnostic, and returns
normally.

The embedding below models records and rows as association lists from
column names to values, the pandas operations as list functions, and the
featuretools aggregation step (whose implementation lives in the external
featuretools library, not in this repository) from the spec's description
of the Feature Derivation Engine.  Numeric cells are modelled as exact
rationals.
-/

namespace ETL

/-- A cell value: string, numeric (modelled as an exact rational in place
of float64), calendar date, or null (pandas NaN/NaT). -/
inductive Value where
  | str (s : String)
  | num (q : ℚ)
  | date (y m d : Nat)
  | null
deriving DecidableEq, Repr

/-- A decoded JSON record: an association list from field names to values.
This models the dict produced by `json.loads` of the Pub/Sub payload. -/
abbrev Record := List (String × Value)

/-- A table row: an ordered association list from column names to values. -/
abbrev Row := List (String × Value)

/-- Errors that can arise inside the `try` block of `ETLpipeline`.
`keyError` models the pandas `KeyError` raised by column selection
`df[[cols]]` when a column is missing; `indexNotUnique` models the
woodwork/featuretools index-uniqueness error raised by `es.add_dataframe`;
`sinkWriteError` models a failed BigQuery load job.
`malformedRecordError` is the error named by the spec's taxonomy
(`MalformedRecordError`); the code never constructs it — it is declared
here only so that the spec's claim about it can be stated and compared
with what the code actually raises. -/
inductive PipelineError where
  | keyError (col : String)
  | malformedRecordError
  | indexNotUnique (table : String)
  | sinkWriteError (table : String)
deriving DecidableEq, Repr

/-- The four in-memory tables the pipeline builds before loading. -/
structure Tables where
  customers : List Row
  products : List Row
  orders : List Row
  orderDetails : List Row
deriving DecidableEq, Repr

/-- Columns selected for the Customers table (main.py line 27). -/
def customersCols : List String :=
  ["Customer ID", "Customer Name", "Segment", "Country", "City",
   "State", "Postal Code", "Region"]

/-- Columns selected for the Products table (main.py line 30). -/
def productsCols : List String :=
  ["Product ID", "Category", "Sub-Category", "Product Name"]

/-- Columns selected for the Orders table (main.py line 33). -/
def ordersCols : List String :=
  ["Order ID", "Order Date", "Ship Date", "Ship Mode"]

/-- Columns selected for the OrderDetails table (main.py line 36). -/
def orderDetailsCols : List String :=
  ["Order ID", "Product ID", "Customer ID", "Sales", "Quantity",
   "Discount", "Profit"]

/-- Column selection `df[[cols]]` applied to one record: project the
record onto `cols`, in order; a missing column raises a pandas
`KeyError` (the model reports the first missing column). -/
def projectRow (cols : List String) (r : Record) : Except PipelineError Row :=
  match cols with
  | [] => .ok []
  | c :: cs =>
    match r.lookup c with
    | some v => (projectRow cs r).map (fun rest => (c, v) :: rest)
    | none => .error (.keyError c)

/-- Column selection applied to every row of the DataFrame.  The source
builds `df = pd.DataFrame([data])`, a one-row frame; the projection is
row-wise, so it is stated over a list of records, and the entry point
instantiates it with the singleton list `[data]`. -/
def projectAll (cols : List String) : List Record → Except PipelineError (List Row)
  | [] => .ok []
  | r :: rs => do
    let row ← projectRow cols r
    let rest ← projectAll cols rs
    return row :: rest

/-- One pass of `drop_duplicates`: keep a row when its key has not been
seen yet, scanning left to right. -/
def dropDupAux {κ : Type} [DecidableEq κ] (key : Row → κ) (seen : List κ) :
    List Row → List Row
  | [] => []
  | r :: rs =>
    if key r ∈ seen then dropDupAux key seen rs
    else r :: dropDupAux key (key r :: seen) rs

/-- Pandas `drop_duplicates(subset=...)` with the default `keep='first'`:
keep the first row for each key, preserving order.  Instantiated with the
identity key it is full-row `drop_duplicates()` (used for Orders). -/
def dropDuplicatesBy {κ : Type} [DecidableEq κ] (key : Row → κ)
    (rows : List Row) : List Row :=
  dropDupAux key [] rows

/-- Pandas `astype(str)` on one cell. -/
def valueToString : Value → String
  | .str s => s
  | .num q => toString q
  | .date y m d => toString y ++ "-" ++ toString m ++ "-" ++ toString d
  | .null => "nan"

/-- The synthetic join key (main.py line 37):
`orderDetails_df['Order ID'].astype(str) + "_" + orderDetails_df['Product ID'].astype(str)`. -/
def makeSyntheticKey (orderID productID : Value) : Value :=
  .str (valueToString orderID ++ "_" ++ valueToString productID)

/-- Append the "OrderDetail ID" column to one OrderDetails row. -/
def addSyntheticKey (r : Row) : Row :=
  r ++ [("OrderDetail ID",
         makeSyntheticKey ((r.lookup "Order ID").getD .null)
                          ((r.lookup "Product ID").getD .null))]

/-- The Customers table (main.py line 27): project then deduplicate by
`Customer ID`, keeping the first occurrence. -/
def customersTable (df : List Record) : Except PipelineError (List Row) :=
  (projectAll customersCols df).map
    (dropDuplicatesBy (fun r => r.lookup "Customer ID"))

/-- The Products table (main.py line 30): project then deduplicate by
`Product ID`. -/
def productsTable (df : List Record) : Except PipelineError (List Row) :=
  (projectAll productsCols df).map
    (dropDuplicatesBy (fun r => r.lookup "Product ID"))

/-- The Orders table (main.py line 33): project then deduplicate by the
full row. -/
def ordersTable (df : List Record) : Except PipelineError (List Row) :=
  (projectAll ordersCols df).map (dropDuplicatesBy (fun r => r))

/-- The OrderDetails table before enrichment (main.py lines 36-37):
project, deduplicate by the composite key (`Order ID`, `Product ID`),
then append the synthetic "OrderDetail ID" column. -/
def orderDetailsNormalized (df : List Record) : Except PipelineError (List Row) :=
  (projectAll orderDetailsCols df).map
    (fun rows =>
      (dropDuplicatesBy
        (fun r => (r.lookup "Order ID", r.lookup "Product ID")) rows).map
        addSyntheticKey)

/-- The index-uniqueness check performed by `es.add_dataframe`
(main.py lines 45-48): woodwork rejects a dataframe whose declared index
column is not unique. -/
def checkUniqueIndex (table indexCol : String) (rows : List Row) :
    Except PipelineError Unit :=
  if (rows.map (fun r => r.lookup indexCol)).Nodup then .ok ()
  else .error (.indexNotUnique table)

/-- Numeric values of column `col` across `rows` (pandas aggregations
skip NaN and non-numeric cells). -/
def extractNums (col : String) (rows : List Row) : List ℚ :=
  rows.filterMap (fun r =>
    match r.lookup col with
    | some (.num q) => some q
    | _ => none)

/-- The `COUNT` of child rows per ancestor row. -/
def aggCount (rows : List Row) : Value := .num rows.length

/-- The `SUM` of a numeric child column (0 over an empty group, as in pandas). -/
def aggSum (col : String) (rows : List Row) : Value :=
  .num (extractNums col rows).sum

/-- One step of a running maximum over an optional accumulator. -/
def optMax (x : ℚ) : Option ℚ → Option ℚ
  | none => some x
  | some y => some (max x y)

/-- The `MAX` of a numeric child column; null over an empty group. -/
def aggMax (col : String) (rows : List Row) : Value :=
  match (extractNums col rows).foldr optMax none with
  | none => .null
  | some m => .num m

/-- The `MEAN` of a numeric child column; null (never a division error) over
an empty group. -/
def aggMean (col : String) (rows : List Row) : Value :=
  let ns := extractNums col rows
  if ns.length = 0 then .null else .num (ns.sum / (ns.length : ℚ))

/-- The ancestor row a child row points to through a foreign-key column:
the first parent row whose key column equals the child's. -/
def findParent (keyCol : String) (parents : List Row) (od : Row) : Option Row :=
  parents.find? (fun p => decide (p.lookup keyCol = od.lookup keyCol))

/-- The group of OrderDetails rows sharing `od`'s value of `keyCol`. -/
def childGroup (keyCol : String) (od : Row) (odAll : List Row) : List Row :=
  odAll.filter (fun r => decide (r.lookup keyCol = od.lookup keyCol))

/-- An ancestor-level aggregate broadcast onto a child row: null when the
child has no matching ancestor row (the spec's null-joinable fallback),
else the aggregate of the child's group. -/
def aggForParent (parent : Option Row) (agg : List Row → Value) (grp : List Row) :
    Value :=
  match parent with
  | none => .null
  | some _ => agg grp

/-- The `MONTH` of the ancestor Order's "Order Date"; null when the ancestor
or the attribute is absent or not a date. -/
def monthFeature (parent : Option Row) : Value :=
  match parent with
  | some p =>
    match p.lookup "Order Date" with
    | some (.date _ m _) => .num m
    | _ => .null
  | none => .null

/-- The `YEAR` of the ancestor Order's "Order Date"; null when the ancestor
or the attribute is absent or not a date. -/
def yearFeature (parent : Option Row) : Value :=
  match parent with
  | some p =>
    match p.lookup "Order Date" with
    | some (.date y _ _) => .num y
    | _ => .null
  | none => .null

/-- Modelled from the spec: the Feature Derivation Engine (`ft.dfs`,
main.py lines 60-65, implemented by the external featuretools library
whose code is not in this repository).  For one target OrderDetails row,
compute the feature columns the pipeline selects downstream: per-ancestor
COUNT/SUM/MEAN/MAX aggregates over the ancestor's group of OrderDetails
rows, broadcast onto the row, plus MONTH/YEAR of the parent Order's
date; a row with no matching ancestor gets nulls for that ancestor's
features (the spec's default null-joinable fallback).  The feature
matrix carries the target index "OrderDetail ID". -/
def featureRowGenerated (customers products orders odAll : List Row) (od : Row) :
    Row :=
  let cp := findParent "Customer ID" customers od
  let pp := findParent "Product ID" products od
  let op := findParent "Order ID" orders od
  let cg := childGroup "Customer ID" od odAll
  let pg := childGroup "Product ID" od odAll
  let og := childGroup "Order ID" od odAll
  [("OrderDetail ID", (od.lookup "OrderDetail ID").getD .null),
   ("Customers.COUNT(OrderDetails)", aggForParent cp aggCount cg),
   ("Products.COUNT(OrderDetails)", aggForParent pp aggCount pg),
   ("Products.MAX(OrderDetails.Profit)", aggForParent pp (aggMax "Profit") pg),
   ("Products.MEAN(OrderDetails.Discount)", aggForParent pp (aggMean "Discount") pg),
   ("Products.SUM(OrderDetails.Quantity)", aggForParent pp (aggSum "Quantity") pg),
   ("Products.SUM(OrderDetails.Sales)", aggForParent pp (aggSum "Sales") pg),
   ("Orders.COUNT(OrderDetails)", aggForParent op aggCount og),
   ("Orders.MAX(OrderDetails.Quantity)", aggForParent op (aggMax "Quantity") og),
   ("Orders.MEAN(OrderDetails.Profit)", aggForParent op (aggMean "Profit") og),
   ("Orders.SUM(OrderDetails.Sales)", aggForParent op (aggSum "Sales") og),
   ("Orders.MONTH(Order Date)", monthFeature op),
   ("Orders.YEAR(Order Date)", yearFeature op)]

/-- The selection and rename table of main.py lines 68-90: generated
featuretools column name paired with its stable output name. -/
def featureRenames : List (String × String) :=
  [("Customers.COUNT(OrderDetails)", "Customer_Order_Count"),
   ("Products.COUNT(OrderDetails)", "Product_Order_Count"),
   ("Products.MAX(OrderDetails.Profit)", "Product_Max_Profit"),
   ("Products.MEAN(OrderDetails.Discount)", "Product_Mean_Discount"),
   ("Products.SUM(OrderDetails.Quantity)", "Product_Total_Quantity"),
   ("Products.SUM(OrderDetails.Sales)", "Product_Total_Sales"),
   ("Orders.COUNT(OrderDetails)", "Order_Item_Count"),
   ("Orders.MAX(OrderDetails.Quantity)", "Order_Max_Quantity"),
   ("Orders.MEAN(OrderDetails.Profit)", "Order_Mean_Profit"),
   ("Orders.SUM(OrderDetails.Sales)", "Order_Total_Sales"),
   ("Orders.MONTH(Order Date)", "Order_Month"),
   ("Orders.YEAR(Order Date)", "Order_Year")]

/-- The 12 output feature column names, in selection order. -/
def renamedCols : List String := featureRenames.map (fun p => p.2)

/-- Select the 12 feature columns from one feature-matrix row and rename
them (main.py lines 68-90); the "OrderDetail ID" index is carried along
for the merge. -/
def selectRename (fr : Row) : Row :=
  ("OrderDetail ID", (fr.lookup "OrderDetail ID").getD .null)
    :: featureRenames.map (fun p => (p.2, (fr.lookup p.1).getD .null))

/-- Pandas `left.merge(right, on=keyCol, how="left")` (main.py lines
93-97): every left row is paired with each right row sharing its key
value; a left row with no match is kept once with nulls for the right
columns `rcols`; the key column appears once (from the left row). -/
def mergeLeft (keyCol : String) (rcols : List String) (left right : List Row) :
    List Row :=
  left.flatMap (fun l =>
    match right.filter (fun r => decide (r.lookup keyCol = l.lookup keyCol)) with
    | [] => [l ++ rcols.map (fun c => (c, Value.null))]
    | ms => ms.map (fun m => l ++ rcols.map (fun c => (c, (m.lookup c).getD .null))))

/-- Pandas `df.drop(columns=[c])` (main.py line 99). -/
def dropColumn (c : String) (rows : List Row) : List Row :=
  rows.map (fun r => r.filter (fun p => decide (¬ p.1 = c)))

/-- The whole in-memory transformation of `ETLpipeline` (main.py lines
24-99), from the decoded record(s) to the four tables handed to the
BigQuery loads: normalization, entity-set index checks, feature
derivation, selection/rename, left merge, and join-key drop.  The entry
point instantiates `df` with the singleton `[data]`, matching
`pd.DataFrame([data])`. -/
def pipelineTables (df : List Record) : Except PipelineError Tables := do
  let customers ← customersTable df
  let products ← productsTable df
  let orders ← ordersTable df
  let od ← orderDetailsNormalized df
  let _ ← checkUniqueIndex "Customers" "Customer ID" customers
  let _ ← checkUniqueIndex "Products" "Product ID" products
  let _ ← checkUniqueIndex "Orders" "Order ID" orders
  let _ ← checkUniqueIndex "OrderDetails" "OrderDetail ID" od
  let featureMatrix := od.map (featureRowGenerated customers products orders od)
  let selected := featureMatrix.map selectRename
  let enriched :=
    dropColumn "OrderDetail ID" (mergeLeft "OrderDetail ID" renamedCols od selected)
  return ⟨customers, products, orders, enriched⟩

/-- What one invocation produces and reports.  `writes` are the BigQuery
loads that completed, in order; `logged` is the diagnostic printed by the
`except` block, if any; `reportsSuccess` is whether the invocation
terminates normally (without re-raising). -/
structure InvocationResult where
  writes : List (String × List Row)
  logged : Option PipelineError
  reportsSuccess : Bool
deriving DecidableEq, Repr

/-- The four sequential `load_to_bigquery` calls (main.py lines 108-112):
each load either succeeds (recorded) or raises, aborting the remaining
loads. -/
def runWrites (sinkFails : String → Bool) :
    List (String × List Row) → List (String × List Row) × Option PipelineError
  | [] => ([], none)
  | (n, t) :: rest =>
    if sinkFails n then ([], some (.sinkWriteError n))
    else
      let (ws, e) := runWrites sinkFails rest
      ((n, t) :: ws, e)

/-- The top-level entry point `ETLpipeline` (main.py lines 13-115) after
message decoding: run the transformation on the one decoded record, then
the four loads; any exception is caught by the `except` block, which
prints the diagnostic and returns normally — so the invocation reports
success on every path, whatever happened.  `sinkFails` models which
BigQuery loads raise. -/
def ETLpipeline (sinkFails : String → Bool) (data : Record) : InvocationResult :=
  match pipelineTables [data] with
  | .error e => ⟨[], some e, true⟩
  | .ok t =>
    let (ws, e) := runWrites sinkFails
      [("Customers", t.customers), ("Products", t.products),
       ("Orders", t.orders), ("OrderDetails", t.orderDetails)]
    ⟨ws, e, true⟩

/-- A well-formed sample record with every required field. -/
def sampleRecord : Record :=
  [("Customer ID", .str "CG-12520"), ("Customer Name", .str "Claire Gute"),
   ("Segment", .str "Consumer"), ("Country", .str "United States"),
   ("City", .str "Henderson"), ("State", .str "Kentucky"),
   ("Postal Code", .str "42420"), ("Region", .str "South"),
   ("Product ID", .str "FUR-BO-10001798"), ("Category", .str "Furniture"),
   ("Sub-Category", .str "Bookcases"), ("Product Name", .str "Somerset Bookcase"),
   ("Order ID", .str "CA-2016-152156"), ("Order Date", .date 2016 11 8),
   ("Ship Date", .date 2016 11 11), ("Ship Mode", .str "Second Class"),
   ("Sales", .num 261), ("Quantity", .num 2), ("Discount", .num 0),
   ("Profit", .num 41)]

/-- The sample record with the "Profit" field removed. -/
def recordMissingProfit : Record :=
  sampleRecord.filter (fun p => decide (¬ p.1 = "Profit"))

/-- The four tables the pipeline computes on `sampleRecord`. -/
def sampleTables : Tables :=
  (pipelineTables [sampleRecord]).toOption.getD ⟨[], [], [], []⟩

/-- A second record with the same Customer ID as `sampleRecord` but a
different city and a different product and order. -/
def sampleRecordDupCustomer : Record :=
  [("Customer ID", .str "CG-12520"), ("Customer Name", .str "Claire Gute"),
   ("Segment", .str "Consumer"), ("Country", .str "United States"),
   ("City", .str "Louisville"), ("State", .str "Kentucky"),
   ("Postal Code", .str "40299"), ("Region", .str "South"),
   ("Product ID", .str "OFF-PA-10002365"), ("Category", .str "Office Supplies"),
   ("Sub-Category", .str "Paper"), ("Product Name", .str "Xerox 1967"),
   ("Order ID", .str "CA-2017-123456"), ("Order Date", .date 2017 4 15),
   ("Ship Date", .date 2017 4 20), ("Ship Mode", .str "Standard Class"),
   ("Sales", .num 15), ("Quantity", .num 3), ("Discount", .num 0),
   ("Profit", .num 6)]

/-- A two-record batch whose rows share one Customer ID. -/
def dupCustomerBatch : List Record := [sampleRecord, sampleRecordDupCustomer]

/-- The projected (pre-dedup) Customers rows of `dupCustomerBatch`. -/
def dupCustomersRaw : List Row :=
  (projectAll customersCols dupCustomerBatch).toOption.getD []

/-- The deduplicated Customers table of `dupCustomerBatch`. -/
def dupCustomersOut : List Row :=
  (customersTable dupCustomerBatch).toOption.getD []

/-- Two tiny rows used to exhibit permutation invariance of the
aggregates on a concrete two-row group. -/
def permRowA : Row := [("Customer ID", .str "A")]

/-- Second row for the permutation example. -/
def permRowB : Row := [("Customer ID", .str "B")]

/-- A tiny concrete left table for the merge example. -/
def mergeLeftRows : List Row :=
  [[("OrderDetail ID", .str "k1")], [("OrderDetail ID", .str "k2")]]

/-- A tiny concrete feature table for the merge example: only "k1" has a
feature row. -/
def mergeRightRows : List Row :=
  [[("OrderDetail ID", .str "k1"), ("Customer_Order_Count", .num 1)]]

/-- A concrete OrderDetails row for the single-record feature example. -/
def witnessOd : Row :=
  [("Order ID", .str "O1"), ("Product ID", .str "P1"),
   ("Customer ID", .str "C1"), ("Sales", .num 10), ("Quantity", .num 2),
   ("Discount", .num 0), ("Profit", .num 5)]

/-- The parent Order row for the feature example. -/
def witnessOrd : Row := [("Order ID", .str "O1"), ("Order Date", .date 2024 3 15)]

/-- The parent Customer row for the feature example. -/
def witnessCust : Row := [("Customer ID", .str "C1")]

/-- The parent Product row for the feature example. -/
def witnessProd : Row := [("Product ID", .str "P1")]

/-- The selected-and-renamed feature row of the one-row example graph. -/
def witnessFeatureRow : Row :=
  selectRename
    (featureRowGenerated [witnessCust] [witnessProd] [witnessOrd] [witnessOd]
      witnessOd)

/-! ## Helper lemmas -/

theorem projectRow_ok_lookup_isSome {cols : List String} {r : Record} {row : Row}
    (h : projectRow cols r = .ok row) : ∀ c ∈ cols, (r.lookup c).isSome := by
  induction cols generalizing row with
  | nil => intro c hc; cases hc
  | cons c cs ih =>
    intro c' hc'
    unfold projectRow at h
    cases hl : r.lookup c with
    | none => rw [hl] at h; cases h
    | some v =>
      rw [hl] at h
      cases hrec : projectRow cs r with
      | error e => rw [hrec] at h; cases h
      | ok rest =>
        cases hc' with
        | head => rw [hl]; rfl
        | tail _ hmem => exact ih hrec _ hmem

theorem projectRow_error_of_lookup_none {cols : List String} {r : Record}
    {c : String} (hc : c ∈ cols) (h : r.lookup c = none) :
    ∃ e, projectRow cols r = .error e := by
  cases hpr : projectRow cols r with
  | error e => exact ⟨e, rfl⟩
  | ok row =>
    have := projectRow_ok_lookup_isSome hpr c hc
    rw [h] at this
    cases this

theorem orderDetailsNormalized_error_single {r : Record}
    (h : r.lookup "Profit" = none) :
    ∃ e, orderDetailsNormalized [r] = .error e := by
  have hmem : "Profit" ∈ orderDetailsCols := by decide
  obtain ⟨e, he⟩ := projectRow_error_of_lookup_none hmem h
  refine ⟨e, ?_⟩
  simp only [orderDetailsNormalized, projectAll, he]
  rfl

theorem pipelineTables_error_of_od {df : List Record} {e : PipelineError}
    (h : orderDetailsNormalized df = .error e) :
    ∃ e', pipelineTables df = .error e' := by
  cases h1 : customersTable df with
  | error e1 => exact ⟨e1, by simp only [pipelineTables, h1]; rfl⟩
  | ok c =>
    cases h2 : productsTable df with
    | error e2 => exact ⟨e2, by simp only [pipelineTables, h1, h2]; rfl⟩
    | ok p =>
      cases h3 : ordersTable df with
      | error e3 => exact ⟨e3, by simp only [pipelineTables, h1, h2, h3]; rfl⟩
      | ok o => exact ⟨e, by simp only [pipelineTables, h1, h2, h3, h]; rfl⟩

theorem ETLpipeline_of_tables_error {sinkFails : String → Bool} {r : Record}
    {e : PipelineError} (h : pipelineTables [r] = .error e) :
    ETLpipeline sinkFails r = ⟨[], some e, true⟩ := by
  simp [ETLpipeline, h]

theorem projectRow_ok_cols {cols : List String} {r : Record} {row : Row}
    (h : projectRow cols r = .ok row) : row.map Prod.fst = cols := by
  induction cols generalizing row with
  | nil => cases h; rfl
  | cons c cs ih =>
    unfold projectRow at h
    cases hl : r.lookup c with
    | none => rw [hl] at h; cases h
    | some v =>
      rw [hl] at h
      cases hrec : projectRow cs r with
      | error e => rw [hrec] at h; cases h
      | ok rest =>
        rw [hrec] at h
        cases h
        simpa using ih hrec

theorem except_bind_ok {α β : Type} {x : Except PipelineError α}
    {f : α → Except PipelineError β} {b : β}
    (h : (x >>= f) = .ok b) : ∃ a, x = .ok a ∧ f a = .ok b := by
  cases x with
  | error e => exact Except.noConfusion h
  | ok a => exact ⟨a, rfl, h⟩

theorem except_map_ok {α β : Type} {x : Except PipelineError α}
    {f : α → β} {b : β}
    (h : Except.map f x = .ok b) : ∃ a, x = .ok a ∧ f a = b := by
  cases x with
  | error e => exact Except.noConfusion h
  | ok a => exact ⟨a, rfl, (Except.ok.injEq _ _).mp h⟩

theorem projectAll_ok_mem {cols : List String} {df : List Record}
    {rows : List Row} (h : projectAll cols df = .ok rows) :
    ∀ row ∈ rows, ∃ r ∈ df, projectRow cols r = .ok row := by
  induction df generalizing rows with
  | nil =>
    cases h
    intro row hrow
    cases hrow
  | cons r rs ih =>
    simp only [projectAll] at h
    obtain ⟨row0, hrow0, h⟩ := except_bind_ok h
    obtain ⟨rest, hrest, h⟩ := except_bind_ok h
    cases h
    intro row hrow
    cases hrow with
    | head => exact ⟨r, List.mem_cons_self r rs, hrow0⟩
    | tail _ hmem =>
      obtain ⟨x, hx, hpx⟩ := ih hrest row hmem
      exact ⟨x, List.mem_cons_of_mem r hx, hpx⟩

theorem mem_of_mem_dropDupAux {κ : Type} [DecidableEq κ] {key : Row → κ}
    {seen : List κ} {l : List Row} {r : Row}
    (h : r ∈ dropDupAux key seen l) : r ∈ l := by
  induction l generalizing seen with
  | nil => cases h
  | cons a l ih =>
    unfold dropDupAux at h
    by_cases hm : key a ∈ seen
    · rw [if_pos hm] at h
      exact List.mem_cons_of_mem a (ih h)
    · rw [if_neg hm] at h
      rw [List.mem_cons] at h
      rcases h with rfl | h'
      · exact List.mem_cons_self r l
      · exact List.mem_cons_of_mem a (ih h')

theorem key_not_seen_of_mem_dropDupAux {κ : Type} [DecidableEq κ]
    {key : Row → κ} {seen : List κ} {l : List Row} {r : Row}
    (h : r ∈ dropDupAux key seen l) : key r ∉ seen := by
  induction l generalizing seen with
  | nil => cases h
  | cons a l ih =>
    unfold dropDupAux at h
    by_cases hm : key a ∈ seen
    · rw [if_pos hm] at h
      exact ih h
    · rw [if_neg hm] at h
      cases h with
      | head => exact hm
      | tail _ h' =>
        intro hseen
        exact ih h' (List.mem_cons_of_mem _ hseen)

theorem nodup_keys_dropDupAux {κ : Type} [DecidableEq κ] {key : Row → κ}
    (seen : List κ) (l : List Row) :
    ((dropDupAux key seen l).map key).Nodup := by
  induction l generalizing seen with
  | nil => simp [dropDupAux]
  | cons a l ih =>
    unfold dropDupAux
    by_cases hm : key a ∈ seen
    · rw [if_pos hm]
      exact ih seen
    · rw [if_neg hm]
      simp only [List.map_cons, List.nodup_cons]
      refine ⟨?_, ih (key a :: seen)⟩
      intro hmem
      obtain ⟨r, hr, hkr⟩ := List.mem_map.mp hmem
      exact key_not_seen_of_mem_dropDupAux hr (hkr ▸ List.mem_cons_self _ _)

theorem coverage_dropDupAux {κ : Type} [DecidableEq κ] {key : Row → κ}
    {seen : List κ} {l : List Row} {x : Row}
    (hx : x ∈ l) (hns : key x ∉ seen) :
    ∃ r ∈ dropDupAux key seen l, key r = key x := by
  induction l generalizing seen with
  | nil => cases hx
  | cons a l ih =>
    unfold dropDupAux
    by_cases hm : key a ∈ seen
    · rw [if_pos hm]
      rcases List.mem_cons.mp hx with rfl | hx'
      · exact absurd hm hns
      · exact ih hx' hns
    · rw [if_neg hm]
      by_cases hk : key x = key a
      · exact ⟨a, List.mem_cons_self _ _, hk.symm⟩
      · rw [List.mem_cons] at hx
        rcases hx with rfl | hx'
        · exact absurd rfl hk
        · have hns' : key x ∉ key a :: seen := by
            intro hmem
            rcases List.mem_cons.mp hmem with he | hmem'
            · exact hk he
            · exact hns hmem'
          obtain ⟨r, hr, hkr⟩ := ih hx' hns'
          exact ⟨r, List.mem_cons_of_mem a hr, hkr⟩

theorem find?_first_of_mem_dropDupAux {κ : Type} [DecidableEq κ]
    {key : Row → κ} {seen : List κ} {l : List Row} {r : Row}
    (h : r ∈ dropDupAux key seen l) :
    l.find? (fun z => decide (key z = key r)) = some r := by
  induction l generalizing seen with
  | nil => cases h
  | cons a l ih =>
    unfold dropDupAux at h
    by_cases hm : key a ∈ seen
    · rw [if_pos hm] at h
      have hkr : key r ∉ seen := key_not_seen_of_mem_dropDupAux h
      have hne : ¬ key a = key r := fun he => hkr (he ▸ hm)
      rw [List.find?_cons_of_neg _ (by simpa using hne)]
      exact ih h
    · rw [if_neg hm] at h
      cases h with
      | head => exact List.find?_cons_of_pos _ (by simp)
      | tail _ h' =>
        have hkr : key r ∉ key a :: seen := key_not_seen_of_mem_dropDupAux h'
        have hne : ¬ key a = key r :=
          fun he => hkr (he ▸ List.mem_cons_self _ _)
        rw [List.find?_cons_of_neg _ (by simpa using hne)]
        exact ih h'

theorem filter_keyEq_of_nodup (keyCol : String) (v : Option Value)
    (right : List Row)
    (hnd : (right.map (fun r => r.lookup keyCol)).Nodup) :
    right.filter (fun r => decide (r.lookup keyCol = v))
      = match right.find? (fun r => decide (r.lookup keyCol = v)) with
        | none => []
        | some mrow => [mrow] := by
  induction right with
  | nil => rfl
  | cons a rs ih =>
    simp only [List.map_cons, List.nodup_cons] at hnd
    by_cases ha : a.lookup keyCol = v
    · rw [List.filter_cons_of_pos (by simpa using ha),
          List.find?_cons_of_pos _ (by simpa using ha)]
      have hnil : rs.filter (fun r => decide (r.lookup keyCol = v)) = [] := by
        rw [List.filter_eq_nil_iff]
        intro r hr
        simp only [decide_eq_true_eq]
        intro hrv
        exact hnd.1 (List.mem_map.mpr ⟨r, hr, hrv.trans ha.symm⟩)
      rw [hnil]
    · rw [List.filter_cons_of_neg (by simpa using ha),
          List.find?_cons_of_neg _ (by simpa using ha)]
      exact ih hnd.2

theorem foldr_optMax_perm {l1 l2 : List ℚ} (h : l1.Perm l2) :
    ∀ init, l1.foldr optMax init = l2.foldr optMax init := by
  induction h with
  | nil => intro init; rfl
  | cons x _ ih =>
    intro init
    simp only [List.foldr_cons, ih init]
  | swap x y l =>
    intro init
    simp only [List.foldr_cons]
    cases l.foldr optMax init with
    | none => simp [optMax, max_comm]
    | some z => simp [optMax, max_left_comm]
  | trans _ _ ih1 ih2 =>
    intro init
    rw [ih1 init, ih2 init]

theorem dropColumn_not_mem (c : String) (rows : List Row) :
    ∀ r ∈ dropColumn c rows, c ∉ r.map Prod.fst := by
  intro r hr
  obtain ⟨r', _, rfl⟩ := List.mem_map.mp hr
  intro hc
  obtain ⟨p, hp, hfst⟩ := List.mem_map.mp hc
  have hpf := List.of_mem_filter hp
  simp only [decide_eq_true_eq] at hpf
  exact hpf hfst

theorem projectAll_single {cols : List String} {r : Record} {rows : List Row}
    (h : projectAll cols [r] = .ok rows) :
    ∃ row, projectRow cols r = .ok row ∧ rows = [row] := by
  simp only [projectAll] at h
  obtain ⟨row, hrow, h⟩ := except_bind_ok h
  obtain ⟨rest, hrest, h⟩ := except_bind_ok h
  cases hrest
  cases h
  exact ⟨row, hrow, rfl⟩

theorem mapExcept_dd_single {cols : List String} {κ : Type} [DecidableEq κ]
    {key : Row → κ} {r : Record} {out : List Row}
    (h : (projectAll cols [r]).map (dropDuplicatesBy key) = .ok out) :
    ∃ row, projectRow cols r = .ok row ∧ out = [row] := by
  obtain ⟨raw, hraw, hmap⟩ := except_map_ok h
  obtain ⟨row, hrow, hr⟩ := projectAll_single hraw
  subst hr
  exact ⟨row, hrow, by rw [← hmap]; rfl⟩

theorem orderDetailsNormalized_single {r : Record} {od : List Row}
    (h : orderDetailsNormalized [r] = .ok od) :
    ∃ row, projectRow orderDetailsCols r = .ok row
      ∧ od = [addSyntheticKey row] := by
  simp only [orderDetailsNormalized] at h
  obtain ⟨raw, hraw, hmap⟩ := except_map_ok h
  obtain ⟨row, hrow, hr⟩ := projectAll_single hraw
  subst hr
  exact ⟨row, hrow, by rw [← hmap]; rfl⟩

theorem mergeLeft_single_length (keyCol : String) (rcols : List String)
    (l mrow : Row) : (mergeLeft keyCol rcols [l] [mrow]).length = 1 := by
  simp only [mergeLeft, List.flatMap_cons, List.flatMap_nil, List.append_nil]
  by_cases hm : (mrow.lookup keyCol = l.lookup keyCol)
  · rw [List.filter_cons_of_pos (by simpa using hm)]
    rfl
  · rw [List.filter_cons_of_neg (by simpa using hm)]
    rfl

theorem pipelineTables_ok_parts {df : List Record} {t : Tables}
    (h : pipelineTables df = .ok t) :
    ∃ od, customersTable df = .ok t.customers
      ∧ productsTable df = .ok t.products
      ∧ ordersTable df = .ok t.orders
      ∧ orderDetailsNormalized df = .ok od
      ∧ t.orderDetails = dropColumn "OrderDetail ID"
          (mergeLeft "OrderDetail ID" renamedCols od
            ((od.map (featureRowGenerated t.customers t.products t.orders od)).map
              selectRename)) := by
  simp only [pipelineTables] at h
  obtain ⟨c, hc, h⟩ := except_bind_ok h
  obtain ⟨p, hp, h⟩ := except_bind_ok h
  obtain ⟨o, ho, h⟩ := except_bind_ok h
  obtain ⟨od, hod, h⟩ := except_bind_ok h
  obtain ⟨u1, hu1, h⟩ := except_bind_ok h
  obtain ⟨u2, hu2, h⟩ := except_bind_ok h
  obtain ⟨u3, hu3, h⟩ := except_bind_ok h
  obtain ⟨u4, hu4, h⟩ := except_map_ok h
  subst h
  exact ⟨od, hc, hp, ho, hod, by simp⟩

theorem sepConcat_inj {l1 m1 l2 m2 : List Char}
    (h1 : '_' ∉ l1) (h2 : '_' ∉ l2)
    (h : l1 ++ '_' :: m1 = l2 ++ '_' :: m2) : l1 = l2 ∧ m1 = m2 := by
  induction l1 generalizing l2 with
  | nil =>
    cases l2 with
    | nil => simpa using h
    | cons b l2' =>
      simp only [List.nil_append, List.cons_append, List.cons.injEq] at h
      exact absurd (h.1 ▸ List.mem_cons_self b l2') h2
  | cons a l1' ih =>
    cases l2 with
    | nil =>
      simp only [List.nil_append, List.cons_append, List.cons.injEq] at h
      exact absurd (h.1.symm ▸ List.mem_cons_self a l1') h1
    | cons b l2' =>
      simp only [List.cons_append, List.cons.injEq] at h
      have h1' : '_' ∉ l1' := fun hx => h1 (List.mem_cons_of_mem a hx)
      have h2' : '_' ∉ l2' := fun hx => h2 (List.mem_cons_of_mem b hx)
      obtain ⟨hl, hm⟩ := ih h1' h2' h.2
      exact ⟨by rw [h.1, hl], hm⟩

/-! ## Claims -/

/-- C1: the spec requires the top-level entry point not to report success
when any of the four table writes did not occur.  The code violates this:
at the concrete input `sampleRecord` with a sink that fails the Products
load, only the Customers write occurs, the error is caught and logged by
the `except` block, and the invocation still terminates normally — a
partial silent success. -/
theorem C1_swallowedSinkFailure :
    ((ETLpipeline (fun t => t == "Products") sampleRecord).writes.map Prod.fst
        = ["Customers"])
    ∧ (ETLpipeline (fun t => t == "Products") sampleRecord).logged
        = some (.sinkWriteError "Products")
    ∧ (ETLpipeline (fun t => t == "Products") sampleRecord).reportsSuccess
        = true :=
  ⟨rfl, rfl, rfl⟩

/-- C2 counterexample: on the concrete record missing "Profit" the
pipeline core fails with the pandas `KeyError` for the "Profit" column —
not with the spec's `MalformedRecordError` — and the invocation performs
zero writes. -/
theorem C2_counterexample :
    pipelineTables [recordMissingProfit] = .error (.keyError "Profit")
    ∧ PipelineError.keyError "Profit" ≠ PipelineError.malformedRecordError
    ∧ (ETLpipeline (fun _ => false) recordMissingProfit).writes = [] :=
  ⟨rfl, by decide, rfl⟩

/-- C2 (amended): for every record in which the required "Profit" field
is absent and every sink, the invocation performs zero writes to any
table (atomicity of failure) and logs a diagnostic; the failure is a
generic `KeyError` caught by the top-level handler, not a
`MalformedRecordError`. -/
theorem C2_missingFieldAtomicity (sinkFails : String → Bool) (r : Record)
    (h : r.lookup "Profit" = none) :
    (ETLpipeline sinkFails r).writes = []
    ∧ (ETLpipeline sinkFails r).logged.isSome = true := by
  obtain ⟨e, he⟩ := orderDetailsNormalized_error_single h
  obtain ⟨e', he'⟩ := pipelineTables_error_of_od he
  rw [ETLpipeline_of_tables_error he']
  exact ⟨rfl, rfl⟩

/-- C2 witness: the amended atomicity statement holds at the concrete
record missing "Profit". -/
theorem C2_missingFieldAtomicity_witness :
    recordMissingProfit.lookup "Profit" = none
    ∧ ((ETLpipeline (fun _ => false) recordMissingProfit).writes = []
       ∧ (ETLpipeline (fun _ => false) recordMissingProfit).logged.isSome = true) :=
  ⟨rfl, C2_missingFieldAtomicity _ _ rfl⟩

/-- C3: join-key purity.  For every input batch on which the pipeline
succeeds, none of the four tables handed to the BigQuery loads contains
the synthetic "OrderDetail ID" column: the dimension tables are
projections of columns that never include it, and it is dropped from the
enriched OrderDetails table before the write. -/
theorem C3_joinKeyPurity (df : List Record) (t : Tables)
    (h : pipelineTables df = .ok t) :
    (∀ r ∈ t.customers, "OrderDetail ID" ∉ r.map Prod.fst)
    ∧ (∀ r ∈ t.products, "OrderDetail ID" ∉ r.map Prod.fst)
    ∧ (∀ r ∈ t.orders, "OrderDetail ID" ∉ r.map Prod.fst)
    ∧ (∀ r ∈ t.orderDetails, "OrderDetail ID" ∉ r.map Prod.fst) := by
  obtain ⟨od, hc, hp, ho, hod, hdrop⟩ := pipelineTables_ok_parts h
  refine ⟨?_, ?_, ?_, ?_⟩
  · intro r hr
    obtain ⟨raw, hraw, hmap⟩ := except_map_ok hc
    rw [← hmap] at hr
    obtain ⟨rec, _, hpr⟩ :=
      projectAll_ok_mem hraw r (mem_of_mem_dropDupAux hr)
    rw [projectRow_ok_cols hpr]
    decide
  · intro r hr
    obtain ⟨raw, hraw, hmap⟩ := except_map_ok hp
    rw [← hmap] at hr
    obtain ⟨rec, _, hpr⟩ :=
      projectAll_ok_mem hraw r (mem_of_mem_dropDupAux hr)
    rw [projectRow_ok_cols hpr]
    decide
  · intro r hr
    obtain ⟨raw, hraw, hmap⟩ := except_map_ok ho
    rw [← hmap] at hr
    obtain ⟨rec, _, hpr⟩ :=
      projectAll_ok_mem hraw r (mem_of_mem_dropDupAux hr)
    rw [projectRow_ok_cols hpr]
    decide
  · rw [hdrop]
    exact dropColumn_not_mem _ _

/-- C3 witness: join-key purity at the concrete sample record. -/
theorem C3_joinKeyPurity_witness :
    pipelineTables [sampleRecord] = .ok sampleTables
    ∧ ((∀ r ∈ sampleTables.customers, "OrderDetail ID" ∉ r.map Prod.fst)
       ∧ (∀ r ∈ sampleTables.products, "OrderDetail ID" ∉ r.map Prod.fst)
       ∧ (∀ r ∈ sampleTables.orders, "OrderDetail ID" ∉ r.map Prod.fst)
       ∧ (∀ r ∈ sampleTables.orderDetails, "OrderDetail ID" ∉ r.map Prod.fst)) :=
  ⟨rfl, C3_joinKeyPurity [sampleRecord] sampleTables rfl⟩

/-- C5: dedup invariant for the Customers table.  For every batch, the
Customers output has pairwise-distinct Customer IDs, covers every
projected input row's Customer ID, and each output row is exactly the
first projected row carrying its Customer ID (first-seen attribute
values). -/
theorem C5_customersDedupFirstSeen (df : List Record) (rows out : List Row)
    (hp : projectAll customersCols df = .ok rows)
    (ho : customersTable df = .ok out) :
    (out.map (fun r => r.lookup "Customer ID")).Nodup
    ∧ (∀ x ∈ rows, ∃ r ∈ out,
        r.lookup "Customer ID" = x.lookup "Customer ID")
    ∧ (∀ r ∈ out,
        rows.find?
          (fun z => decide (z.lookup "Customer ID" = r.lookup "Customer ID"))
          = some r) := by
  obtain ⟨raw, hraw, hmap⟩ := except_map_ok ho
  rw [hraw] at hp
  cases hp
  rw [← hmap]
  refine ⟨nodup_keys_dropDupAux [] rows, ?_, ?_⟩
  · intro x hx
    exact coverage_dropDupAux hx (by simp)
  · intro r hr
    exact find?_first_of_mem_dropDupAux hr

/-- C5 witness: the dedup invariant at a concrete two-record batch
sharing one Customer ID. -/
theorem C5_customersDedupFirstSeen_witness :
    customersTable dupCustomerBatch = .ok dupCustomersOut
    ∧ ((dupCustomersOut.map (fun r => r.lookup "Customer ID")).Nodup
       ∧ (∀ x ∈ dupCustomersRaw, ∃ r ∈ dupCustomersOut,
           r.lookup "Customer ID" = x.lookup "Customer ID")
       ∧ (∀ r ∈ dupCustomersOut,
           dupCustomersRaw.find?
             (fun z => decide (z.lookup "Customer ID" = r.lookup "Customer ID"))
             = some r)) :=
  ⟨rfl, C5_customersDedupFirstSeen dupCustomerBatch dupCustomersRaw
          dupCustomersOut rfl rfl⟩

/-- C6: left-join completeness.  When the feature side's join keys are
pairwise distinct (as the entity-set index check guarantees for every
successful run), the merge produces exactly one output row per input
OrderDetail row, in order: the row extended with its matching feature
cells, or with nulls for all feature columns when no feature row
matches.  In particular every OrderDetail row appears exactly once and
none is duplicated. -/
theorem C6_leftJoinCompleteness (keyCol : String) (rcols : List String)
    (left right : List Row)
    (hnd : (right.map (fun r => r.lookup keyCol)).Nodup) :
    mergeLeft keyCol rcols left right
      = left.map (fun l =>
          match right.find? (fun r => decide (r.lookup keyCol = l.lookup keyCol)) with
          | none => l ++ rcols.map (fun c => (c, Value.null))
          | some mrow =>
              l ++ rcols.map (fun c => (c, (mrow.lookup c).getD .null))) := by
  induction left with
  | nil => rfl
  | cons l ls ih =>
    have hstep : mergeLeft keyCol rcols (l :: ls) right
        = (match right.filter (fun r => decide (r.lookup keyCol = l.lookup keyCol)) with
           | [] => [l ++ rcols.map (fun c => (c, Value.null))]
           | ms => ms.map
               (fun mrow => l ++ rcols.map (fun c => (c, (mrow.lookup c).getD .null))))
          ++ mergeLeft keyCol rcols ls right := by
      simp [mergeLeft]
    rw [hstep, filter_keyEq_of_nodup keyCol (l.lookup keyCol) right hnd, ih,
        List.map_cons]
    cases hfind :
        right.find? (fun r => decide (r.lookup keyCol = l.lookup keyCol)) with
    | none => rfl
    | some mrow => rfl

/-- C6 witness: the left-join characterization at a concrete pair of
tables in which one row has a matching feature row and the other has
none. -/
theorem C6_leftJoinCompleteness_witness :
    ((mergeRightRows.map (fun r => r.lookup "OrderDetail ID")).Nodup)
    ∧ mergeLeft "OrderDetail ID" renamedCols mergeLeftRows mergeRightRows
      = mergeLeftRows.map (fun l =>
          match mergeRightRows.find?
              (fun r => decide (r.lookup "OrderDetail ID" = l.lookup "OrderDetail ID")) with
          | none => l ++ renamedCols.map (fun c => (c, Value.null))
          | some mrow =>
              l ++ renamedCols.map (fun c => (c, (mrow.lookup c).getD .null))) :=
  ⟨by decide,
   C6_leftJoinCompleteness "OrderDetail ID" renamedCols mergeLeftRows
     mergeRightRows (by decide)⟩

/-- C7: null-safe aggregates.  A target row whose Product group of
OrderDetails rows is empty gets a null
"Products.MEAN(OrderDetails.Discount)" feature (never a
division-by-zero error), and a target row with no matching parent Order
gets a null "Orders.MONTH(Order Date)" date decomposition. -/
theorem C7_nullSafeMeanAndDate (customers products orders odAll : List Row)
    (od : Row)
    (h1 : childGroup "Product ID" od odAll = [])
    (h2 : findParent "Order ID" orders od = none) :
    (featureRowGenerated customers products orders odAll od).lookup
        "Products.MEAN(OrderDetails.Discount)" = some .null
    ∧ (featureRowGenerated customers products orders odAll od).lookup
        "Orders.MONTH(Order Date)" = some .null := by
  constructor <;>
  · simp only [featureRowGenerated, h1, h2]
    cases hpp : findParent "Product ID" products od <;>
      simp [List.lookup, aggForParent, aggMean, extractNums, monthFeature]

/-- C7 witness: the null-safe feature values at concrete empty inputs. -/
theorem C7_nullSafeMeanAndDate_witness :
    childGroup "Product ID" [] [] = []
    ∧ ((featureRowGenerated [] [] [] [] []).lookup
          "Products.MEAN(OrderDetails.Discount)" = some .null
       ∧ (featureRowGenerated [] [] [] [] []).lookup
          "Orders.MONTH(Order Date)" = some .null) :=
  ⟨rfl, C7_nullSafeMeanAndDate [] [] [] [] [] rfl rfl⟩

/-- C8: determinism.  The pipeline is a pure function of its input —
running it twice on the same record yields identical results — and the
aggregate feature values do not depend on the iteration order of the
OrderDetails rows: each aggregate is invariant under permutation of its
group. -/
theorem C8_determinismAndOrderInvariance (sinkFails : String → Bool)
    (data : Record) (col : String) (l1 l2 : List Row) (h : l1.Perm l2) :
    ETLpipeline sinkFails data = ETLpipeline sinkFails data
    ∧ aggCount l1 = aggCount l2
    ∧ aggSum col l1 = aggSum col l2
    ∧ aggMax col l1 = aggMax col l2
    ∧ aggMean col l1 = aggMean col l2 := by
  have hperm : (extractNums col l1).Perm (extractNums col l2) :=
    h.filterMap _
  refine ⟨rfl, ?_, ?_, ?_, ?_⟩
  · simp only [aggCount, h.length_eq]
  · simp only [aggSum, hperm.sum_eq]
  · simp only [aggMax, foldr_optMax_perm hperm none]
  · simp only [aggMean, hperm.sum_eq, hperm.length_eq]

/-- C8 witness: determinism and order invariance at a concrete record
and a concrete two-row swap. -/
theorem C8_determinismAndOrderInvariance_witness :
    ([permRowA, permRowB].Perm [permRowB, permRowA])
    ∧ (ETLpipeline (fun _ => false) sampleRecord
        = ETLpipeline (fun _ => false) sampleRecord
       ∧ aggCount [permRowA, permRowB] = aggCount [permRowB, permRowA]
       ∧ aggSum "Sales" [permRowA, permRowB] = aggSum "Sales" [permRowB, permRowA]
       ∧ aggMax "Sales" [permRowA, permRowB] = aggMax "Sales" [permRowB, permRowA]
       ∧ aggMean "Sales" [permRowA, permRowB]
          = aggMean "Sales" [permRowB, permRowA]) :=
  ⟨List.Perm.swap permRowB permRowA [],
   C8_determinismAndOrderInvariance (fun _ => false) sampleRecord "Sales"
     [permRowA, permRowB] [permRowB, permRowA]
     (List.Perm.swap permRowB permRowA [])⟩

/-- C9: single-record invocation.  The entry point wraps the decoded
record as a one-row frame, so on every successful run each of the four
tables handed to the loads has exactly one row, and the deduplication
operation is a no-op on any single-row input. -/
theorem C9_singleRecordInvocation (data : Record) (t : Tables)
    (h : pipelineTables [data] = .ok t) :
    t.customers.length = 1 ∧ t.products.length = 1 ∧ t.orders.length = 1
    ∧ t.orderDetails.length = 1
    ∧ (∀ (κ : Type) (inst : DecidableEq κ) (key : Row → κ) (r : Row),
        @dropDuplicatesBy κ inst key [r] = [r]) := by
  obtain ⟨od, hc, hp, ho, hod, hdrop⟩ := pipelineTables_ok_parts h
  simp only [customersTable] at hc
  simp only [productsTable] at hp
  simp only [ordersTable] at ho
  obtain ⟨rowc, _, hcs⟩ := mapExcept_dd_single hc
  obtain ⟨rowp, _, hps⟩ := mapExcept_dd_single hp
  obtain ⟨rowo, _, hos⟩ := mapExcept_dd_single ho
  obtain ⟨rowd, _, hds⟩ := orderDetailsNormalized_single hod
  refine ⟨by rw [hcs]; rfl, by rw [hps]; rfl, by rw [hos]; rfl, ?_, ?_⟩
  · rw [hdrop, hds]
    simp only [dropColumn, List.length_map, List.map_cons, List.map_nil]
    exact mergeLeft_single_length _ _ _ _
  · intro κ inst key r
    simp [dropDuplicatesBy, dropDupAux]

/-- C9 witness: one output row per table at the concrete sample record,
and the dedup no-op at a concrete single-row input. -/
theorem C9_singleRecordInvocation_witness :
    pipelineTables [sampleRecord] = .ok sampleTables
    ∧ sampleTables.customers.length = 1
    ∧ sampleTables.orderDetails.length = 1
    ∧ dropDuplicatesBy (fun r => r.lookup "Customer ID")
        [[("Customer ID", Value.str "CG-12520")]]
        = [[("Customer ID", Value.str "CG-12520")]] :=
  ⟨rfl, (C9_singleRecordInvocation sampleRecord sampleTables rfl).1,
   (C9_singleRecordInvocation sampleRecord sampleTables rfl).2.2.2.1,
   (C9_singleRecordInvocation sampleRecord sampleTables rfl).2.2.2.2
     (Option Value) inferInstance (fun r => r.lookup "Customer ID")
     [("Customer ID", Value.str "CG-12520")]⟩

/-- C10: on a one-row entity graph every selected aggregate feature is
trivial: the three COUNT features are 1, each SUM/MEAN/MAX feature
equals the corresponding attribute of the row itself, and Order_Month /
Order_Year are the calendar parts of the parent Order's date. -/
theorem C10_singleRecordTrivialFeatures
    (customers products orders : List Row) (od cust prod ord fr : Row)
    (sales qty disc prof : ℚ) (y m d : Nat)
    (hc : findParent "Customer ID" customers od = some cust)
    (hp : findParent "Product ID" products od = some prod)
    (ho : findParent "Order ID" orders od = some ord)
    (hs : od.lookup "Sales" = some (.num sales))
    (hq : od.lookup "Quantity" = some (.num qty))
    (hd : od.lookup "Discount" = some (.num disc))
    (hpr : od.lookup "Profit" = some (.num prof))
    (hdate : ord.lookup "Order Date" = some (.date y m d))
    (hfr : fr = selectRename (featureRowGenerated customers products orders [od] od)) :
    fr.lookup "Customer_Order_Count" = some (.num 1)
    ∧ fr.lookup "Product_Order_Count" = some (.num 1)
    ∧ fr.lookup "Product_Max_Profit" = some (.num prof)
    ∧ fr.lookup "Product_Mean_Discount" = some (.num disc)
    ∧ fr.lookup "Product_Total_Quantity" = some (.num qty)
    ∧ fr.lookup "Product_Total_Sales" = some (.num sales)
    ∧ fr.lookup "Order_Item_Count" = some (.num 1)
    ∧ fr.lookup "Order_Max_Quantity" = some (.num qty)
    ∧ fr.lookup "Order_Mean_Profit" = some (.num prof)
    ∧ fr.lookup "Order_Total_Sales" = some (.num sales)
    ∧ fr.lookup "Order_Month" = some (.num m)
    ∧ fr.lookup "Order_Year" = some (.num y) := by
  subst hfr
  have hcg : childGroup "Customer ID" od [od] = [od] := by simp [childGroup]
  have hpg : childGroup "Product ID" od [od] = [od] := by simp [childGroup]
  have hog : childGroup "Order ID" od [od] = [od] := by simp [childGroup]
  refine ⟨?_, ?_, ?_, ?_, ?_, ?_, ?_, ?_, ?_, ?_, ?_, ?_⟩ <;>
    simp [selectRename, featureRenames, featureRowGenerated, hcg, hpg, hog,
          hc, hp, ho, hs, hq, hd, hpr, hdate, aggForParent, aggCount, aggSum,
          aggMax, aggMean, extractNums, optMax, monthFeature, yearFeature,
          List.lookup]

/-- C10 witness: the trivial single-record feature values at a concrete
one-row entity graph. -/
theorem C10_singleRecordTrivialFeatures_witness :
    findParent "Customer ID" [witnessCust] witnessOd = some witnessCust
    ∧ witnessOd.lookup "Sales" = some (.num 10)
    ∧ witnessOrd.lookup "Order Date" = some (.date 2024 3 15)
    ∧ (witnessFeatureRow.lookup "Customer_Order_Count" = some (.num 1)
       ∧ witnessFeatureRow.lookup "Product_Order_Count" = some (.num 1)
       ∧ witnessFeatureRow.lookup "Product_Max_Profit" = some (.num 5)
       ∧ witnessFeatureRow.lookup "Product_Mean_Discount" = some (.num 0)
       ∧ witnessFeatureRow.lookup "Product_Total_Quantity" = some (.num 2)
       ∧ witnessFeatureRow.lookup "Product_Total_Sales" = some (.num 10)
       ∧ witnessFeatureRow.lookup "Order_Item_Count" = some (.num 1)
       ∧ witnessFeatureRow.lookup "Order_Max_Quantity" = some (.num 2)
       ∧ witnessFeatureRow.lookup "Order_Mean_Profit" = some (.num 5)
       ∧ witnessFeatureRow.lookup "Order_Total_Sales" = some (.num 10)
       ∧ witnessFeatureRow.lookup "Order_Month" = some (.num 3)
       ∧ witnessFeatureRow.lookup "Order_Year" = some (.num 2024)) :=
  ⟨rfl, rfl, rfl,
   C10_singleRecordTrivialFeatures [witnessCust] [witnessProd] [witnessOrd]
     witnessOd witnessCust witnessProd witnessOrd witnessFeatureRow
     10 2 0 5 2024 3 15 rfl rfl rfl rfl rfl rfl rfl rfl rfl⟩

/-- C4 counterexample: the synthetic join key separator "_" can occur in
the IDs themselves, and then two distinct (order ID, product ID) pairs
collide: ("a_b", "c") and ("a", "b_c") both produce the key "a_b_c". -/
theorem C4_counterexample :
    makeSyntheticKey (Value.str "a_b") (Value.str "c")
      = makeSyntheticKey (Value.str "a") (Value.str "b_c")
    ∧ (Value.str "a_b", Value.str "c") ≠ (Value.str "a", Value.str "b_c") :=
  ⟨rfl, by decide⟩

/-- C4 (amended): the synthetic join key is the deterministic string
concatenation of order ID and product ID with separator "_", with no
escaping and no validation that the separator is absent from the IDs;
keys of distinct pairs can collide when an ID contains "_", and
distinctness of keys is guaranteed only for IDs that do not contain the
separator. -/
theorem C4_keyInjectiveOnSepFreeIDs (o1 p1 o2 p2 : String)
    (h1 : '_' ∉ o1.data) (h2 : '_' ∉ o2.data)
    (h : makeSyntheticKey (.str o1) (.str p1) = makeSyntheticKey (.str o2) (.str p2)) :
    o1 = o2 ∧ p1 = p2 := by
  have hs : o1 ++ "_" ++ p1 = o2 ++ "_" ++ p2 := by
    simpa [makeSyntheticKey, valueToString] using h
  have hd : o1.data ++ '_' :: p1.data = o2.data ++ '_' :: p2.data := by
    have := congrArg String.data hs
    simpa using this
  obtain ⟨ho, hp⟩ := sepConcat_inj h1 h2 hd
  exact ⟨String.ext ho, String.ext hp⟩

/-- C4 witness: injectivity of the synthetic key on separator-free IDs,
applied at concrete IDs. -/
theorem C4_keyInjectiveOnSepFreeIDs_witness :
    '_' ∉ ("CA-2016-152156" : String).data
    ∧ (("CA-2016-152156" : String) = "CA-2016-152156"
       ∧ ("FUR-BO-10001798" : String) = "FUR-BO-10001798") :=
  ⟨by decide,
   C4_keyInjectiveOnSepFreeIDs "CA-2016-152156" "FUR-BO-10001798"
     "CA-2016-152156" "FUR-BO-10001798" (by decide) (by decide) rfl⟩

end ETL
